import Mathlib

/-!
Verification of the background sampling/logging engine of the dryer-dashboard
repository (`src/app/logger.py`, class `CsvLogger`), against its design
specification.

Shallow embedding conventions:

* Python floats are modelled as exact rationals `ℚ`; the claims under study
  concern clamping, null propagation and field emptiness, none of which
  depend on rounding.  The decimal rendering of a float is abstracted by an
  injective rendering function (`renderCell`).
* Python `None` is `Option.none`; a CSV cell is a `Cell` (empty, numeric,
  boolean or textual).
* The log directory is an association list from file names to the list of
  rows the file holds (`FS`).  `path.open('a')` on a missing file creates
  it, which `appendRow` reproduces.
* Exceptions raised by the operating system during file I/O are environment
  nondeterminism; they are modelled by explicit boolean parameters
  (`headerOk`, `sampleOk`, `readOk`): `true` means the corresponding file
  operation succeeds, `false` means it raises.  The embedding of each
  Python function then shows literally where the source catches (result
  `none`, state kept) and where it lets the exception escape.
* The background thread of `CsvLogger._run` is modelled by a thread slot in
  the state (`ThreadPhase`) together with explicit step functions:
  `threadInit` is the prologue of `_run` (file creation, header, immediate
  sample) and `threadTick` is one iteration of its loop.  `start` only
  spawns the thread, exactly as `threading.Thread(...).start()` does.
* Python string comparison (used by `sorted(..., reverse=True)`) is
  code-point lexicographic; it is modelled by `lexLtCh` on the character
  lists, and the stable descending sort by `List.insertionSort` of the
  complemented order (for a linear order the descending stable sort of a
  list of keys is its unique descending-sorted permutation).
-/

namespace DryerLog

/-- One CSV cell, as produced by `csv.writer` applied to the Python values
appearing in `CsvLogger._sample_and_write`: the empty string, a float, a
bool, or a piece of text. -/
inductive Cell where
  | empty
  | num (q : ℚ)
  | boolC (b : Bool)
  | strC (s : String)
deriving DecidableEq

/-- One data row of a log file. -/
abbrev Row := List Cell

/-- The sensor payload returned by `sensors.read_all()` (or `{}` when the
read raised, in which case every field below is absent). -/
structure Payload where
  inlet_c : Option ℚ
  outlet_c : Option ℚ
  inlet_v : Option ℚ
  outlet_v : Option ℚ
  simulated : Bool
  errors : Option (List String)
deriving DecidableEq

/-- `v_to_pct` from `CsvLogger._sample_and_write`: `(float(v) / 3.3) * 100.0`
followed by two clamping conditionals; `float(None)` raises, which the
`except` branch turns into `None`. -/
def v_to_pct : Option ℚ → Option ℚ
  | none => none
  | some v =>
    let pct := v / (33 / 10) * 100
    let pct1 := if pct < 0 then 0 else pct
    let pct2 := if pct1 > 100 then 100 else pct1
    some pct2

/-- Concatenate strings with a separator (`str.join`). -/
def joinWith (sep : String) : List String → String
  | [] => ""
  | [x] => x
  | x :: y :: xs => x ++ sep ++ joinWith sep (y :: xs)

/-- The ASCII apostrophe, written by `str` around each list element. -/
def quoteCh : Char := Char.ofNat 39

/-- Python `str` applied to a list of strings: `[]` for the empty list,
otherwise the quoted elements joined by a comma and a space.  (Escaping of
quotes inside a diagnostic is elided; diagnostics are plain messages.) -/
def pyStrList (es : List String) : String :=
  "[" ++ joinWith ", "
    (es.map (fun e => String.singleton quoteCh ++ e ++ String.singleton quoteCh)) ++ "]"

/-- `'' if x is None else x` for a numeric field. -/
def optNum : Option ℚ → Cell
  | none => Cell.empty
  | some q => Cell.num q

/-- `'' if errors is None else str(errors)`. -/
def errorsCell : Option (List String) → Cell
  | none => Cell.empty
  | some es => Cell.strC (pyStrList es)

/-- The `bushels` computation of `_sample_and_write`: empty when the derived
inlet moisture is `None`, else `max(0.0, (1.0 - moisture_in / 100.0) * 100.0)`. -/
def bushelsCell (inlet_v : Option ℚ) : Cell :=
  match v_to_pct inlet_v with
  | none => Cell.empty
  | some m => Cell.num (max 0 ((1 - m / 100) * 100))

/-- The row assembled by `CsvLogger._sample_and_write`.  `rowTs` is the
`datetime.utcnow().isoformat()` prefix of the timestamp; `auger` is the
module-global `_AUGER_PCT` cell (empty when the global is unset). -/
def sampleRow (rowTs : String) (auger : Cell) (p : Payload) : Row :=
  [ Cell.strC (rowTs ++ "Z"),
    optNum p.inlet_c, optNum p.outlet_c, optNum p.inlet_v, optNum p.outlet_v,
    Cell.boolC p.simulated,
    errorsCell p.errors,
    auger,
    bushelsCell p.inlet_v ]

/-- The header row written by `CsvLogger._write_header_if_needed`. -/
def headerRow : Row :=
  [Cell.strC "timestamp", Cell.strC "inlet_c", Cell.strC "outlet_c", Cell.strC "inlet_v",
   Cell.strC "outlet_v", Cell.strC "simulated", Cell.strC "errors", Cell.strC "auger_pct",
   Cell.strC "bushels_per_hr"]

/-- The ASCII double quote. -/
def dquoteCh : Char := Char.ofNat 34

/-- Whether `csv.writer` (QUOTE_MINIMAL) must quote a cell text: it contains
a comma, a double quote, or a line break. -/
def needsQuote (s : String) : Bool :=
  s.data.any (fun c => (c == ',') || (c == dquoteCh) || (c == Char.ofNat 10) || (c == Char.ofNat 13))

/-- Minimal CSV quoting as performed by `csv.writer`. -/
def csvQuote (s : String) : String :=
  if needsQuote s then
    String.singleton dquoteCh ++
      s.replace (String.singleton dquoteCh) (String.singleton dquoteCh ++ String.singleton dquoteCh)
      ++ String.singleton dquoteCh
  else s

/-- Text of one cell as written to the file.  `num` rendering abstracts the
decimal float representation by an injective printable form. -/
def renderCell : Cell → String
  | Cell.empty => ""
  | Cell.num q => toString q
  | Cell.boolC b => if b then "True" else "False"
  | Cell.strC s => s

/-- One on-disk line of a log file: the quoted cells joined by commas. -/
def renderRow (r : Row) : String := joinWith "," (r.map (fun c => csvQuote (renderCell c)))

/-- The log directory: file names with their row lists, in creation order
(most recently created first). -/
abbrev FS := List (String × List Row)

/-- `path.exists()` within the log directory. -/
def fileExists (fs : FS) (n : String) : Bool := fs.any (fun p => p.1 == n)

/-- The row list of a file of the directory, if the file exists. -/
def lookupFS (fs : FS) (n : String) : Option (List Row) :=
  (fs.find? (fun p => p.1 == n)).map Prod.snd

/-- `CsvLogger._write_header_if_needed`: create the file with the header row
only if it does not exist yet. -/
def writeHeaderIfNeeded (fs : FS) (n : String) : FS :=
  if fileExists fs n then fs else (n, [headerRow]) :: fs

/-- `CsvLogger._append_row` via `path.open('a')`: append one row, creating
the file (without header) when it is missing. -/
def appendRow (fs : FS) (n : String) (r : Row) : FS :=
  if fileExists fs n then fs.map (fun p => if p.1 == n then (p.1, p.2 ++ [r]) else p)
  else (n, [r]) :: fs

/-- `CsvLogger._make_filename`, with the `strftime('%Y%m%dT%H%M%SZ')` text
passed in as `ts`. -/
def makeFilename (ts : String) : String := "dryer-log-" ++ ts ++ ".csv"

/-- Phase of the background thread of `CsvLogger._run`: freshly spawned (the
prologue has not executed yet), or looping with its local `path` variable. -/
inductive ThreadPhase where
  | spawned
  | looping (path : String)
deriving DecidableEq

/-- The mutable state of a `CsvLogger` instance together with its log
directory.  `thread = none` models both `_thread is None` and a dead
thread (`is_alive()` false), the two cases every method treats alike. -/
structure LoggerState where
  fs : FS
  currentFile : Option String
  thread : Option ThreadPhase
  stopRequested : Bool
  interval : Nat
deriving DecidableEq

/-- `CsvLogger.is_running`. -/
def is_running (s : LoggerState) : Bool := s.thread.isSome

/-- `CsvLogger.current_file` (paths are stored as names already). -/
def current_file (s : LoggerState) : Option String := s.currentFile

/-- `CsvLogger.start`: no-op when running; otherwise clear the stop event
and spawn the background thread.  No file is touched here. -/
def start (s : LoggerState) : LoggerState :=
  if is_running s then s
  else { s with stopRequested := false, thread := some ThreadPhase.spawned }

/-- `CsvLogger.stop`: no-op when not running; otherwise set the stop event,
join the thread (modelled as succeeding within the bound) and clear the
thread slot.  `_current_file` is left untouched. -/
def stop (s : LoggerState) : LoggerState :=
  if is_running s then { s with stopRequested := true, thread := none }
  else s

/-- Prologue of `CsvLogger._run`: make the file name, write the header
(unprotected: a raise here kills the thread), publish `_current_file`, then
take one immediate sample inside `try/except pass` (a failure is swallowed
and the loop is entered anyway). -/
def threadInit (fnameTs rowTs : String) (auger : Cell) (p : Payload)
    (headerOk sampleOk : Bool) (s : LoggerState) : LoggerState :=
  match s.thread with
  | some ThreadPhase.spawned =>
    let path := makeFilename fnameTs
    if !(fileExists s.fs path) && !headerOk then
      { s with thread := none }
    else
      let fs1 := writeHeaderIfNeeded s.fs path
      let fs2 := if sampleOk then appendRow fs1 path (sampleRow rowTs auger p) else fs1
      { s with fs := fs2, currentFile := some path,
               thread := some (ThreadPhase.looping path) }
  | _ => s

/-- One iteration of the `while not self._stop.wait(...)` loop of `_run`:
exit when the stop event is set, otherwise sample with any failure
swallowed. -/
def threadTick (rowTs : String) (auger : Cell) (p : Payload) (sampleOk : Bool)
    (s : LoggerState) : LoggerState :=
  match s.thread with
  | some (ThreadPhase.looping path) =>
    if s.stopRequested then { s with thread := none }
    else if sampleOk then { s with fs := appendRow s.fs path (sampleRow rowTs auger p) }
    else s
  | _ => s

/-- `CsvLogger.sample_once`: ensure a current file (creating it with header
when there is none), publish `_current_file`, append one sample row, and
return the file name; every exception is caught and turned into `None`. -/
def sample_once (fnameTs rowTs : String) (auger : Cell) (p : Payload)
    (headerOk appendOk : Bool) (s : LoggerState) : LoggerState × Option String :=
  match s.currentFile with
  | none =>
    let path := makeFilename fnameTs
    if !(fileExists s.fs path) && !headerOk then (s, none)
    else
      let s1 := { s with fs := writeHeaderIfNeeded s.fs path, currentFile := some path }
      if appendOk then
        ({ s1 with fs := appendRow s1.fs path (sampleRow rowTs auger p) }, some path)
      else (s1, none)
  | some path =>
    if appendOk then
      ({ s with fs := appendRow s.fs path (sampleRow rowTs auger p) }, some path)
    else (s, none)

/-- Code-point lexicographic strict comparison of character lists: the model
of Python string `<`. -/
def lexLtCh : List Char → List Char → Bool
  | _, [] => false
  | [], _ :: _ => true
  | a :: l1, b :: l2 => if a < b then true else if a = b then lexLtCh l1 l2 else false

/-- The descending order used by `sorted(..., reverse=True)`: `a` before `b`
when `a` is not lexicographically smaller than `b`. -/
def descOrd (a b : String) : Prop := lexLtCh a.data b.data = false

instance : DecidableRel descOrd := fun _ _ => inferInstanceAs (Decidable (_ = false))

/-- `s.startswith(t)` on names. -/
def strStarts (s t : String) : Bool := t.data.isPrefixOf s.data

/-- `s.endswith(t)` on names. -/
def strEnds (s t : String) : Bool := t.data.isSuffixOf s.data

/-- Whether a name matches the glob pattern `dryer-log-*.csv`. -/
def matchesLogName (n : String) : Bool :=
  strStarts n "dryer-log-" && strEnds n ".csv" && decide (14 ≤ n.data.length)

/-- `CsvLogger.list_logs`: the names of the directory matching
`dryer-log-*.csv`, sorted descending. -/
def list_logs (s : LoggerState) : List String :=
  List.insertionSort descOrd ((s.fs.map Prod.fst).filter matchesLogName)

/-- Python `str.strip()`: drop leading and trailing whitespace. -/
def stripStr (s : String) : String :=
  String.mk (((s.data.dropWhile Char.isWhitespace).reverse.dropWhile Char.isWhitespace).reverse)

/-- `CsvLogger.get_latest_row`: take the newest name from `list_logs`, read
its lines (a raise yields `None`), drop blank lines, and return the last
line unless only the header (or less) is present. -/
def get_latest_row (readOk : Bool) (s : LoggerState) : Option String :=
  match list_logs s with
  | [] => none
  | newest :: _ =>
    if readOk then
      match lookupFS s.fs newest with
      | none => none
      | some rows =>
        let lines := (rows.map (fun r => stripStr (renderRow r))).filter (fun l => !(l == ""))
        if lines.length ≤ 1 then none else lines.getLast?
    else none

/-- Spec-side clamp, transcribed from the specification sentence
`pct = clamp(raw/3.3*100, 0, 100)`. -/
def clampQ (x lo hi : ℚ) : ℚ := min hi (max lo x)

/-- Concrete payload whose diagnostics list is present but empty. -/
def payloadNoErrors : Payload := ⟨none, none, none, none, false, some []⟩

/-- Concrete payload with every sensor value absent and no diagnostics. -/
def payloadAllNone : Payload := ⟨none, none, none, none, false, none⟩

/-- A freshly constructed logger over an empty log directory
(`CsvLogger.__init__` with the default 900-second interval). -/
def initState : LoggerState := ⟨[], none, none, false, 900⟩

/-- A UTC wall-clock instant, as produced by `datetime.utcnow()`. -/
structure UTCTime where
  year : Nat
  month : Nat
  day : Nat
  hour : Nat
  minute : Nat
  second : Nat
deriving DecidableEq

/-- Bounds under which every `strftime('%Y%m%dT%H%M%SZ')` field fits its
fixed width (any real calendar instant of years 0-9999 satisfies them). -/
def validTime (t : UTCTime) : Prop :=
  t.year < 10000 ∧ t.month < 100 ∧ t.day < 100 ∧ t.hour < 100 ∧ t.minute < 100 ∧ t.second < 100

instance (t : UTCTime) : Decidable (validTime t) := by
  unfold validTime
  infer_instance

/-- The ASCII digit character for one decimal digit. -/
def digitChar (d : Nat) : Char := Char.ofNat (48 + d)

/-- Zero-padded two-digit rendering (`%m%d%H%M%S` fields). -/
def pad2 (n : Nat) : List Char := [digitChar (n / 10), digitChar (n % 10)]

/-- Zero-padded four-digit rendering (`%Y`). -/
def pad4 (n : Nat) : List Char :=
  [digitChar (n / 1000), digitChar (n / 100 % 10), digitChar (n / 10 % 10), digitChar (n % 10)]

/-- `datetime.utcnow().strftime('%Y%m%dT%H%M%SZ')`. -/
def strftimeCompact (t : UTCTime) : String :=
  String.mk (pad4 t.year ++ (pad2 t.month ++ (pad2 t.day ++
    ('T' :: (pad2 t.hour ++ (pad2 t.minute ++ (pad2 t.second ++ ['Z'])))))))

/-- Chronological key of an instant: later instants have larger keys. -/
def timeKey (t : UTCTime) : Nat :=
  ((((t.year * 100 + t.month) * 100 + t.day) * 100 + t.hour) * 100 + t.minute) * 100 + t.second

/-- The fresh logger state right after one successful `sample_once()`. -/
def afterOnce : LoggerState :=
  (sample_once "20250101T000000Z" "2025-01-01T00:00:00" Cell.empty payloadAllNone
    true true initState).1

/-! ### Derivation claims (C2, C3, C4) -/


/-- C3: for every raw voltage input `v`, `v_to_pct v` equals
`clamp(v/3.3*100, 0, 100)`, hence lies between 0 and 100 (in particular at
the boundary inputs -1, 0, 3.3 and 10), and a null input produces a null
percentage. -/
theorem v_to_pct_clamp_spec :
    (∀ v : ℚ, v_to_pct (some v) = some (clampQ (v / (33/10) * 100) 0 100)) ∧
    (∀ v : ℚ, ∃ r, v_to_pct (some v) = some r ∧ 0 ≤ r ∧ r ≤ 100) ∧
    v_to_pct (some (-1)) = some 0 ∧ v_to_pct (some 0) = some 0 ∧
    v_to_pct (some (33/10)) = some 100 ∧ v_to_pct (some 10) = some 100 ∧
    v_to_pct none = none := by
  have key : ∀ v : ℚ, v_to_pct (some v) = some (clampQ (v / (33/10) * 100) 0 100) := by
    intro v
    unfold v_to_pct clampQ
    set pct := v / (33/10) * 100 with hp
    by_cases h1 : pct < 0
    · have h100 : ¬ ((0:ℚ) > 100) := by norm_num
      simp only [if_pos h1, if_neg h100]
      rw [max_eq_left h1.le, min_eq_right]
      norm_num
    · by_cases h2 : pct > 100
      · simp only [if_neg h1, if_pos h2]
        rw [max_eq_right (not_lt.mp h1), min_eq_left h2.le]
      · simp only [if_neg h1, if_neg h2]
        rw [max_eq_right (not_lt.mp h1), min_eq_right (not_lt.mp h2)]
  refine ⟨key, ?_, ?_, ?_, ?_, ?_, rfl⟩
  · intro v
    refine ⟨clampQ (v / (33/10) * 100) 0 100, key v, ?_, ?_⟩
    · exact le_min (by norm_num) (le_max_left 0 _)
    · exact min_le_left _ _
  · rw [key]; unfold clampQ; norm_num
  · rw [key]; unfold clampQ; norm_num
  · rw [key]; unfold clampQ; norm_num
  · rw [key]; unfold clampQ
    rw [max_eq_right, min_eq_left] <;> norm_num


/-- C2 counterexample: a row derived from a payload with an empty (non-null)
diagnostics list carries the two-character text `[]` in the errors column,
not an empty field. -/
theorem errors_cell_counterexample :
    (sampleRow "2025-01-01T00:00:00" Cell.empty payloadNoErrors).get? 6 =
      some (Cell.strC "[]") ∧ Cell.strC "[]" ≠ Cell.empty := by
  exact ⟨rfl, by decide⟩

/-- C2 (amended): the errors field is the printable representation of the
diagnostics list whenever the list is present (`[]` for the empty list);
only a null diagnostics list gives an empty errors field; every absent
numeric field (inlet_c, outlet_c, inlet_v, outlet_v, bushels_per_hr)
serializes as an empty field, and those five columns never hold a textual
literal such as `None` or `null`. -/
theorem row_null_serialization :
    ∀ (rowTs : String) (auger : Cell) (p : Payload),
      (p.errors = none → (sampleRow rowTs auger p).get? 6 = some Cell.empty) ∧
      (∀ es, p.errors = some es →
          (sampleRow rowTs auger p).get? 6 = some (Cell.strC (pyStrList es))) ∧
      pyStrList [] = "[]" ∧
      (p.inlet_c = none → (sampleRow rowTs auger p).get? 1 = some Cell.empty) ∧
      (p.outlet_c = none → (sampleRow rowTs auger p).get? 2 = some Cell.empty) ∧
      (p.inlet_v = none → (sampleRow rowTs auger p).get? 3 = some Cell.empty ∧
          (sampleRow rowTs auger p).get? 8 = some Cell.empty) ∧
      (p.outlet_v = none → (sampleRow rowTs auger p).get? 4 = some Cell.empty) ∧
      (∀ t, (sampleRow rowTs auger p).get? 1 ≠ some (Cell.strC t)) ∧
      (∀ t, (sampleRow rowTs auger p).get? 2 ≠ some (Cell.strC t)) ∧
      (∀ t, (sampleRow rowTs auger p).get? 3 ≠ some (Cell.strC t)) ∧
      (∀ t, (sampleRow rowTs auger p).get? 4 ≠ some (Cell.strC t)) ∧
      (∀ t, (sampleRow rowTs auger p).get? 8 ≠ some (Cell.strC t)) := by
  intro rowTs auger p
  refine ⟨?_, ?_, rfl, ?_, ?_, ?_, ?_, ?_, ?_, ?_, ?_, ?_⟩
  · intro h
    show some (errorsCell p.errors) = _
    rw [h]; rfl
  · intro es h
    show some (errorsCell p.errors) = _
    rw [h]; rfl
  · intro h
    show some (optNum p.inlet_c) = _
    rw [h]; rfl
  · intro h
    show some (optNum p.outlet_c) = _
    rw [h]; rfl
  · intro h
    refine ⟨?_, ?_⟩
    · show some (optNum p.inlet_v) = _
      rw [h]; rfl
    · show some (bushelsCell p.inlet_v) = _
      rw [h]; rfl
  · intro h
    show some (optNum p.outlet_v) = _
    rw [h]; rfl
  · intro t h
    have h' : optNum p.inlet_c = Cell.strC t := by
      have := h
      simpa using Option.some.inj this
    cases hc : p.inlet_c <;> rw [hc] at h' <;> exact Cell.noConfusion h'
  · intro t h
    have h' : optNum p.outlet_c = Cell.strC t := by simpa using Option.some.inj h
    cases hc : p.outlet_c <;> rw [hc] at h' <;> exact Cell.noConfusion h'
  · intro t h
    have h' : optNum p.inlet_v = Cell.strC t := by simpa using Option.some.inj h
    cases hc : p.inlet_v <;> rw [hc] at h' <;> exact Cell.noConfusion h'
  · intro t h
    have h' : optNum p.outlet_v = Cell.strC t := by simpa using Option.some.inj h
    cases hc : p.outlet_v <;> rw [hc] at h' <;> exact Cell.noConfusion h'
  · intro t h
    have h' : bushelsCell p.inlet_v = Cell.strC t := by simpa using Option.some.inj h
    unfold bushelsCell at h'
    cases hv : v_to_pct p.inlet_v <;> rw [hv] at h' <;> exact Cell.noConfusion h'


/-- Witness for `row_null_serialization` at a concrete payload. -/
theorem row_null_serialization_witness :
    payloadAllNone.errors = none ∧ payloadAllNone.inlet_v = none ∧
      (sampleRow "t" Cell.empty payloadAllNone).get? 6 = some Cell.empty ∧
      (sampleRow "t" Cell.empty payloadAllNone).get? 8 = some Cell.empty :=
  ⟨rfl, rfl, (row_null_serialization "t" Cell.empty payloadAllNone).1 rfl,
    ((row_null_serialization "t" Cell.empty payloadAllNone).2.2.2.2.2.1 rfl).2⟩

/-- C4: the throughput cell equals `max(0, (1 - moisture_in/100) * 100)`
whenever the derived inlet moisture is present, and a null `inlet_v` yields
a null derived moisture, an empty bushels field and an empty inlet_v
field. -/
theorem bushels_from_moisture :
    ∀ (rowTs : String) (auger : Cell) (p : Payload),
      (∀ m, v_to_pct p.inlet_v = some m →
        (sampleRow rowTs auger p).get? 8 = some (Cell.num (max 0 ((1 - m / 100) * 100)))) ∧
      (p.inlet_v = none → v_to_pct p.inlet_v = none ∧
        (sampleRow rowTs auger p).get? 8 = some Cell.empty ∧
        (sampleRow rowTs auger p).get? 3 = some Cell.empty) := by
  intro rowTs auger p
  constructor
  · intro m hm
    show some (bushelsCell p.inlet_v) = _
    unfold bushelsCell
    rw [hm]
  · intro h
    refine ⟨by rw [h]; rfl, ?_, ?_⟩
    · show some (bushelsCell p.inlet_v) = _
      unfold bushelsCell
      rw [h]; rfl
    · show some (optNum p.inlet_v) = _
      rw [h]; rfl

/-- Witness for `bushels_from_moisture`: the null-propagation part at the
all-null payload, and the numeric part at a payload with a zero voltage. -/
theorem bushels_from_moisture_witness :
    (payloadAllNone.inlet_v = none ∧
      (sampleRow "t" Cell.empty payloadAllNone).get? 8 = some Cell.empty) ∧
    ((sampleRow "t" Cell.empty ⟨none, none, some 0, none, false, none⟩).get? 8 =
      some (Cell.num (max 0 ((1 - 0 / 100) * 100)))) :=
  ⟨⟨rfl, ((bushels_from_moisture "t" Cell.empty payloadAllNone).2 rfl).2.1⟩,
    (bushels_from_moisture "t" Cell.empty ⟨none, none, some 0, none, false, none⟩).1 0
      (by simp [v_to_pct])⟩

/-! ### Directory lemmas -/

/-- Searching a name in the directory commutes with the row-update map of
`appendRow`, because the update preserves every file name. -/
theorem find?_map_update (fs : FS) (n m : String) (r : Row) :
    List.find? (fun p : String × List Row => p.1 == m)
        (fs.map (fun p => if p.1 == n then (p.1, p.2 ++ [r]) else p)) =
      Option.map (fun p => if p.1 == n then (p.1, p.2 ++ [r]) else p)
        (List.find? (fun p : String × List Row => p.1 == m) fs) := by
  rw [List.find?_map]
  have hpred : ((fun p : String × List Row => p.1 == m) ∘
      (fun p => if p.1 == n then (p.1, p.2 ++ [r]) else p)) =
      (fun p : String × List Row => p.1 == m) := by
    funext q
    by_cases hc : (q.1 == n) = true
    · simp [Function.comp, hc]
    · simp [Function.comp, hc]
  rw [hpred]

/-- The row-update map of `appendRow` leaves every name other than the
target unchanged under lookup. -/
theorem lookupFS_map_update (fs : FS) (n m : String) (r : Row) (h : m ≠ n) :
    lookupFS (fs.map (fun p => if p.1 == n then (p.1, p.2 ++ [r]) else p)) m =
      lookupFS fs m := by
  unfold lookupFS
  rw [find?_map_update]
  cases hf : List.find? (fun p : String × List Row => p.1 == m) fs with
  | none => rfl
  | some q =>
    have hq := List.find?_some hf
    simp only [beq_iff_eq] at hq
    have hne : q.1 ≠ n := fun hh => h (hq ▸ hh)
    simp [hne]

/-- Looking up a name at the head of the directory. -/
theorem lookupFS_cons_self (fs : FS) (n : String) (rs : List Row) :
    lookupFS ((n, rs) :: fs) n = some rs := by
  unfold lookupFS
  rw [List.find?_cons_of_pos _ (by simp)]
  rfl

/-- Appending a row to a file leaves every other file unchanged. -/
theorem lookupFS_appendRow_ne (fs : FS) (n m : String) (r : Row) (h : m ≠ n) :
    lookupFS (appendRow fs n r) m = lookupFS fs m := by
  unfold appendRow
  by_cases he : fileExists fs n = true
  · rw [if_pos he]
    exact lookupFS_map_update fs n m r h
  · rw [if_neg he]
    unfold lookupFS
    rw [List.find?_cons_of_neg _ (by
      simp only [beq_iff_eq]
      exact fun hh => h hh.symm)]

/-- A name absent from the directory has no rows. -/
theorem lookupFS_eq_none_of_not_exists (fs : FS) (n : String)
    (h : fileExists fs n = false) : lookupFS fs n = none := by
  unfold lookupFS
  rw [List.find?_eq_none.mpr]
  · rfl
  · intro q hq hb
    apply absurd h
    simp only [Bool.not_eq_false]
    exact List.any_eq_true.mpr ⟨q, hq, hb⟩

/-- Appending a row to a file makes exactly that row follow the previous
contents (an absent file is created holding just the row, as `open('a')`
does). -/
theorem lookupFS_appendRow_self (fs : FS) (n : String) (r : Row) :
    lookupFS (appendRow fs n r) n = some ((lookupFS fs n).getD [] ++ [r]) := by
  by_cases he : fileExists fs n = true
  · have hsome : (List.find? (fun p : String × List Row => p.1 == n) fs).isSome = true := by
      rw [List.find?_isSome]
      exact List.any_eq_true.mp he
    obtain ⟨q, hq⟩ := Option.isSome_iff_exists.mp hsome
    have hq1 := List.find?_some hq
    simp only [beq_iff_eq] at hq1
    unfold appendRow
    rw [if_pos he]
    unfold lookupFS
    rw [find?_map_update, hq]
    simp [hq1]
  · have he' : fileExists fs n = false := eq_false_of_ne_true he
    unfold appendRow
    rw [if_neg he, lookupFS_cons_self, lookupFS_eq_none_of_not_exists fs n he']
    rfl

/-! ### Sampler state-machine claims (C1, C5, C8, C9) -/

/-- C1 counterexample: on a fresh logger, `start()` returns having touched
no file at all — the log directory is still empty and `current_file()` is
still null, because file creation and the first sample happen later, inside
the background thread's own first step. -/
theorem start_counterexample :
    is_running initState = false ∧
    (start initState).fs = [] ∧
    (start initState).currentFile = none ∧
    is_running (start initState) = true := by decide

/-- C1 (amended): `start()` on a non-running sampler only spawns the
background task (no file I/O happens before it returns, so the new file and
first data row need not exist yet); the task's first step then creates the
timestamped file, writes the header, publishes it as the current file and
takes one immediate sample, and a failure of that first sample is swallowed
by the task — the file keeps only its header, the task keeps running, and no
failure result reaches the caller of `start()`. -/
theorem start_spawns_thread_first_step_creates_file :
    ∀ (s : LoggerState) (fnameTs rowTs : String) (auger : Cell) (p : Payload) (sampleOk : Bool),
      is_running s = false →
      (start s).fs = s.fs ∧ (start s).currentFile = s.currentFile ∧
      is_running (start s) = true ∧ (start s).thread = some ThreadPhase.spawned ∧
      (fileExists s.fs (makeFilename fnameTs) = false →
        (threadInit fnameTs rowTs auger p true sampleOk (start s)).currentFile =
            some (makeFilename fnameTs) ∧
        is_running (threadInit fnameTs rowTs auger p true sampleOk (start s)) = true ∧
        lookupFS (threadInit fnameTs rowTs auger p true sampleOk (start s)).fs
            (makeFilename fnameTs) =
          some (if sampleOk then [headerRow, sampleRow rowTs auger p] else [headerRow])) := by
  intro s fnameTs rowTs auger p sampleOk h
  have hs : start s = { s with stopRequested := false, thread := some ThreadPhase.spawned } := by
    unfold start
    rw [h]
    rfl
  refine ⟨by rw [hs], by rw [hs], by rw [hs]; rfl, by rw [hs], ?_⟩
  intro hfree
  rw [hs]
  simp only [threadInit, hfree, Bool.not_true, Bool.and_false, Bool.false_eq_true, if_false,
    Bool.not_false]
  have hw : writeHeaderIfNeeded s.fs (makeFilename fnameTs) =
      (makeFilename fnameTs, [headerRow]) :: s.fs := by
    unfold writeHeaderIfNeeded
    rw [hfree]
    rfl
  cases sampleOk with
  | true =>
    refine ⟨?_, ?_, ?_⟩
    · trivial
    · trivial
    · simp only [if_true]
      rw [hw, lookupFS_appendRow_self, lookupFS_cons_self]
      rfl
  | false =>
    refine ⟨?_, ?_, ?_⟩
    · trivial
    · trivial
    · simp only [Bool.false_eq_true, if_false]
      rw [hw, lookupFS_cons_self]

/-- Witness for `start_spawns_thread_first_step_creates_file` on the fresh
logger state, exercising the swallowed-failure branch. -/
theorem start_spawns_thread_witness :
    is_running initState = false ∧
    fileExists initState.fs (makeFilename "20250101T000000Z") = false ∧
    lookupFS (threadInit "20250101T000000Z" "t" Cell.empty payloadAllNone true false
        (start initState)).fs (makeFilename "20250101T000000Z") = some [headerRow] :=
  ⟨rfl, rfl,
    ((start_spawns_thread_first_step_creates_file initState "20250101T000000Z" "t"
      Cell.empty payloadAllNone false rfl).2.2.2.2 rfl).2.2⟩

/-- C5: `sample_once()` appends exactly one derived row to the active file
(other files are untouched), creates the file with its header first when no
active file exists yet, returns the written file's name on success, returns
`None` — instead of raising — when the header write or the append fails, and
behaves identically whether or not the periodic loop is running. -/
theorem sample_once_spec :
    ∀ (fnameTs rowTs : String) (auger : Cell) (p : Payload) (s : LoggerState),
      (∀ path hOk, s.currentFile = some path →
        sample_once fnameTs rowTs auger p hOk true s =
          ({ s with fs := appendRow s.fs path (sampleRow rowTs auger p) }, some path) ∧
        lookupFS (appendRow s.fs path (sampleRow rowTs auger p)) path =
          some ((lookupFS s.fs path).getD [] ++ [sampleRow rowTs auger p]) ∧
        (∀ m, m ≠ path →
          lookupFS (appendRow s.fs path (sampleRow rowTs auger p)) m = lookupFS s.fs m)) ∧
      (s.currentFile = none → fileExists s.fs (makeFilename fnameTs) = false →
        (sample_once fnameTs rowTs auger p true true s).2 = some (makeFilename fnameTs) ∧
        (sample_once fnameTs rowTs auger p true true s).1.currentFile =
          some (makeFilename fnameTs) ∧
        lookupFS (sample_once fnameTs rowTs auger p true true s).1.fs (makeFilename fnameTs) =
          some [headerRow, sampleRow rowTs auger p]) ∧
      (∀ hOk, (sample_once fnameTs rowTs auger p hOk false s).2 = none) ∧
      (s.currentFile = none → fileExists s.fs (makeFilename fnameTs) = false →
        ∀ aOk, sample_once fnameTs rowTs auger p false aOk s = (s, none)) ∧
      (∀ t hOk aOk,
        sample_once fnameTs rowTs auger p hOk aOk { s with thread := t } =
          ({ (sample_once fnameTs rowTs auger p hOk aOk s).1 with thread := t },
            (sample_once fnameTs rowTs auger p hOk aOk s).2)) := by
  intro fnameTs rowTs auger p s
  refine ⟨?_, ?_, ?_, ?_, ?_⟩
  · intro path hOk h
    refine ⟨?_, lookupFS_appendRow_self _ _ _, fun m hm => lookupFS_appendRow_ne _ _ _ _ hm⟩
    simp [sample_once, h]
  · intro h hfree
    have hw : writeHeaderIfNeeded s.fs (makeFilename fnameTs) =
        (makeFilename fnameTs, [headerRow]) :: s.fs := by
      unfold writeHeaderIfNeeded
      rw [hfree]
      rfl
    simp only [sample_once, h, hfree, Bool.not_true, Bool.and_false, Bool.false_eq_true,
      if_false, Bool.not_false, if_true]
    refine ⟨?_, ?_, ?_⟩
    · trivial
    · trivial
    · simp only [hw]
      rw [lookupFS_appendRow_self, lookupFS_cons_self]
      rfl
  · intro hOk
    cases hc : s.currentFile with
    | none =>
      by_cases hx : (!(fileExists s.fs (makeFilename fnameTs)) && !hOk) = true
      · simp [sample_once, hc, hx]
      · simp [sample_once, hc, hx]
    | some path => simp [sample_once, hc]
  · intro h hfree aOk
    simp [sample_once, h, hfree]
  · intro t hOk aOk
    obtain ⟨fs, cf, th, sr, iv⟩ := s
    cases cf with
    | none =>
      by_cases hx : (!(fileExists fs (makeFilename fnameTs)) && !hOk) = true
      · simp [sample_once, hx]
      · cases aOk <;> simp [sample_once, hx]
    | some path => cases aOk <;> simp [sample_once]

/-- Witness for `sample_once_spec`: on the fresh logger a single call
creates the file with header and one data row and returns its name, and a
failing append reports `None`. -/
theorem sample_once_spec_witness :
    initState.currentFile = none ∧
    fileExists initState.fs (makeFilename "20250101T000000Z") = false ∧
    (sample_once "20250101T000000Z" "t" Cell.empty payloadAllNone true true initState).2 =
      some (makeFilename "20250101T000000Z") ∧
    lookupFS (sample_once "20250101T000000Z" "t" Cell.empty payloadAllNone true true
        initState).1.fs (makeFilename "20250101T000000Z") =
      some [headerRow, sampleRow "t" Cell.empty payloadAllNone] ∧
    (sample_once "20250101T000000Z" "t" Cell.empty payloadAllNone true false initState).2 =
      none :=
  ⟨rfl, rfl,
    ((sample_once_spec "20250101T000000Z" "t" Cell.empty payloadAllNone initState).2.1
      rfl rfl).1,
    ((sample_once_spec "20250101T000000Z" "t" Cell.empty payloadAllNone initState).2.1
      rfl rfl).2.2,
    (sample_once_spec "20250101T000000Z" "t" Cell.empty payloadAllNone initState).2.2.1 true⟩

/-- C8: `start()` and `stop()` are idempotent: a second `start()` right
after a first is a no-op on the whole state (so a double start still yields
the single background task, and once that task's first step has run on a
fresh directory there is exactly one log file), and `stop()` on a
non-running sampler leaves the state unchanged. -/
theorem start_stop_idempotent :
    ∀ (s : LoggerState) (fnameTs rowTs : String) (auger : Cell) (p : Payload),
      start (start s) = start s ∧ is_running (start s) = true ∧
      (is_running s = false → stop s = s) ∧
      (is_running s = false → s.fs = [] →
        ((threadInit fnameTs rowTs auger p true true (start (start s))).fs).map Prod.fst =
          [makeFilename fnameTs]) := by
  intro s fnameTs rowTs auger p
  have hrun : is_running (start s) = true := by
    by_cases h : is_running s = true
    · unfold start
      rw [if_pos h]
      exact h
    · unfold start
      rw [if_neg h]
      rfl
  have hss : start (start s) = start s := by
    generalize hgen : start s = t at hrun
    unfold start
    rw [hrun]
    simp
  refine ⟨hss, hrun, ?_, ?_⟩
  · intro h
    unfold stop
    rw [h]
    simp
  · intro h hempty
    rw [hss]
    obtain ⟨fs, cf, th, sr, iv⟩ := s
    simp only at hempty
    subst hempty
    have hth : th = none := by
      cases th with
      | none => rfl
      | some ph => simp [is_running] at h
    subst hth
    have hstart : start ⟨[], cf, none, sr, iv⟩ =
        ⟨[], cf, some ThreadPhase.spawned, false, iv⟩ := rfl
    rw [hstart]
    simp [threadInit, writeHeaderIfNeeded, appendRow, fileExists]

/-- Witness for `start_stop_idempotent` on the fresh logger state. -/
theorem start_stop_idempotent_witness :
    is_running initState = false ∧ initState.fs = [] ∧ stop initState = initState ∧
    ((threadInit "20250101T000000Z" "t" Cell.empty payloadAllNone true true
        (start (start initState))).fs).map Prod.fst =
      [makeFilename "20250101T000000Z"] :=
  ⟨rfl, rfl,
    (start_stop_idempotent initState "20250101T000000Z" "t" Cell.empty payloadAllNone).2.2.1 rfl,
    (start_stop_idempotent initState "20250101T000000Z" "t" Cell.empty
      payloadAllNone).2.2.2 rfl rfl⟩

/-- C9: `stop()` never clears the active file reference: `current_file()`
afterwards yields what it yielded before, the directory is untouched, the
running flag becomes false, and a later `sample_once()` still appends its
row to that same file and returns its name. -/
theorem stop_preserves_current_file :
    ∀ (s : LoggerState) (fnameTs rowTs : String) (auger : Cell) (p : Payload),
      current_file (stop s) = current_file s ∧ (stop s).fs = s.fs ∧
      is_running (stop s) = false ∧
      (∀ path hOk, s.currentFile = some path →
        (sample_once fnameTs rowTs auger p hOk true (stop s)).2 = some path ∧
        lookupFS (sample_once fnameTs rowTs auger p hOk true (stop s)).1.fs path =
          some ((lookupFS s.fs path).getD [] ++ [sampleRow rowTs auger p])) := by
  intro s fnameTs rowTs auger p
  have hcf : (stop s).currentFile = s.currentFile := by
    unfold stop
    by_cases h : is_running s = true
    · rw [if_pos h]
    · rw [if_neg h]
  have hfs : (stop s).fs = s.fs := by
    unfold stop
    by_cases h : is_running s = true
    · rw [if_pos h]
    · rw [if_neg h]
  have hnr : is_running (stop s) = false := by
    unfold stop
    by_cases h : is_running s = true
    · rw [if_pos h]
      rfl
    · rw [if_neg h]
      exact eq_false_of_ne_true h
  refine ⟨hcf, hfs, hnr, ?_⟩
  intro path hOk h
  have hc : (stop s).currentFile = some path := by rw [hcf]; exact h
  have hmain := ((sample_once_spec fnameTs rowTs auger p (stop s)).1 path hOk hc).1
  rw [hmain]
  refine ⟨rfl, ?_⟩
  simp only [hfs]
  exact lookupFS_appendRow_self _ _ _

/-- Witness for `stop_preserves_current_file` on a running state holding an
active file. -/
theorem stop_preserves_current_file_witness :
    current_file (stop ⟨[], some "dryer-log-x.csv",
        some (ThreadPhase.looping "dryer-log-x.csv"), false, 900⟩) =
      some "dryer-log-x.csv" ∧
    (sample_once "f" "t" Cell.empty payloadAllNone true true
        (stop ⟨[], some "dryer-log-x.csv",
          some (ThreadPhase.looping "dryer-log-x.csv"), false, 900⟩)).2 =
      some "dryer-log-x.csv" :=
  ⟨(stop_preserves_current_file ⟨[], some "dryer-log-x.csv",
      some (ThreadPhase.looping "dryer-log-x.csv"), false, 900⟩ "f" "t" Cell.empty
      payloadAllNone).1,
    ((stop_preserves_current_file ⟨[], some "dryer-log-x.csv",
      some (ThreadPhase.looping "dryer-log-x.csv"), false, 900⟩ "f" "t" Cell.empty
      payloadAllNone).2.2.2 "dryer-log-x.csv" true rfl).1⟩

/-! ### Lexicographic order of log file names (C7) -/

/-- Head-wise unfolding of character-list lexicographic order. -/
theorem lex_cons_iff' (a b : Char) (l1 l2 : List Char) :
    List.Lex (fun x y : Char => x < y) (a :: l1) (b :: l2) ↔
      a < b ∨ (a = b ∧ List.Lex (fun x y : Char => x < y) l1 l2) := by
  constructor
  · intro h
    cases h with
    | cons h => exact Or.inr ⟨rfl, h⟩
    | rel h => exact Or.inl h
  · intro h
    rcases h with h | ⟨rfl, h⟩
    · exact List.Lex.rel h
    · exact List.Lex.cons h

/-- Lexicographic order on character lists is irreflexive. -/
theorem lex_irrefl (l : List Char) : ¬ List.Lex (fun x y : Char => x < y) l l := by
  induction l with
  | nil => exact List.Lex.not_nil_right _ _
  | cons a t ih =>
    intro h
    cases h with
    | cons h => exact ih h
    | rel h => exact absurd h (lt_irrefl a)

/-- `lexLtCh` computes lexicographic order on character lists. -/
theorem lexLtCh_iff_lex : ∀ l1 l2 : List Char,
    lexLtCh l1 l2 = true ↔ List.Lex (fun x y : Char => x < y) l1 l2 := by
  intro l1
  induction l1 with
  | nil =>
    intro l2
    cases l2 with
    | nil => exact iff_of_false (by simp [lexLtCh]) (List.Lex.not_nil_right _ _)
    | cons b t2 => exact iff_of_true rfl List.Lex.nil
  | cons a t1 ih =>
    intro l2
    cases l2 with
    | nil => exact iff_of_false (by simp [lexLtCh]) (List.Lex.not_nil_right _ _)
    | cons b t2 =>
      show (if a < b then true else if a = b then lexLtCh t1 t2 else false) = true ↔ _
      by_cases hab : a < b
      · rw [if_pos hab]
        exact iff_of_true rfl (List.Lex.rel hab)
      · rw [if_neg hab]
        by_cases heq : a = b
        · subst heq
          rw [if_pos rfl, ih t2]
          exact List.Lex.cons_iff.symm
        · rw [if_neg heq]
          refine iff_of_false (by simp) ?_
          intro h
          cases h with
          | cons h => exact heq rfl
          | rel h => exact hab h

/-- The sort order of `list_logs` is the reverse of the order on the
underlying character lists. -/
theorem descOrd_iff_le (a b : String) : descOrd a b ↔ b.data ≤ a.data := by
  unfold descOrd
  rw [← Bool.not_eq_true, lexLtCh_iff_lex]
  show ¬ a.data < b.data ↔ b.data ≤ a.data
  exact not_lt

/-- Totality of the descending order. -/
theorem descOrd_total (a b : String) : descOrd a b ∨ descOrd b a := by
  rw [descOrd_iff_le, descOrd_iff_le]
  exact le_total b.data a.data

/-- Transitivity of the descending order. -/
theorem descOrd_trans (a b c : String) : descOrd a b → descOrd b c → descOrd a c := by
  rw [descOrd_iff_le, descOrd_iff_le, descOrd_iff_le]
  intro h1 h2
  exact le_trans h2 h1

/-- Lexicographic comparison of concatenations with equal-length left parts
decomposes into a comparison of the left parts and then of the right
parts. -/
theorem lex_append_iff (l1 l2 r1 r2 : List Char) (h : l1.length = l2.length) :
    List.Lex (fun x y : Char => x < y) (l1 ++ r1) (l2 ++ r2) ↔
      List.Lex (fun x y : Char => x < y) l1 l2 ∨
        (l1 = l2 ∧ List.Lex (fun x y : Char => x < y) r1 r2) := by
  induction l1 generalizing l2 with
  | nil =>
    cases l2 with
    | nil =>
      have hnl := List.Lex.not_nil_right (fun x y : Char => x < y) ([] : List Char)
      simp [hnl]
    | cons b t2 => exact absurd h (by simp)
  | cons a t1 ih =>
    cases l2 with
    | nil => exact absurd h (by simp)
    | cons b t2 =>
      have hlen : t1.length = t2.length := by simpa using h
      rw [List.cons_append, List.cons_append, lex_cons_iff', lex_cons_iff', ih t2 hlen]
      constructor
      · rintro (hab | ⟨rfl, (hl | ⟨rfl, hr⟩)⟩)
        · exact Or.inl (Or.inl hab)
        · exact Or.inl (Or.inr ⟨rfl, hl⟩)
        · exact Or.inr ⟨rfl, hr⟩
      · rintro ((hab | ⟨rfl, hl⟩) | ⟨heq, hr⟩)
        · exact Or.inl hab
        · exact Or.inr ⟨rfl, Or.inl hl⟩
        · cases heq
          exact Or.inr ⟨rfl, Or.inr ⟨rfl, hr⟩⟩

/-- Digit characters compare like their digits. -/
theorem digitChar_lt_iff : ∀ a, a < 10 → ∀ b, b < 10 →
    (digitChar a < digitChar b ↔ a < b) := by decide

/-- Digit characters are distinct for distinct digits. -/
theorem digitChar_inj : ∀ a, a < 10 → ∀ b, b < 10 →
    (digitChar a = digitChar b ↔ a = b) := by decide

/-- Two-digit zero-padded renderings compare like their values. -/
theorem pad2_lex_iff (a b : Nat) (ha : a < 100) (hb : b < 100) :
    (List.Lex (fun x y : Char => x < y) (pad2 a) (pad2 b) ↔ a < b) := by
  unfold pad2
  rw [lex_cons_iff', lex_cons_iff']
  rw [digitChar_lt_iff _ (by omega) _ (by omega), digitChar_inj _ (by omega) _ (by omega),
    digitChar_lt_iff _ (by omega) _ (by omega), digitChar_inj _ (by omega) _ (by omega)]
  have hnl := List.Lex.not_nil_right (fun x y : Char => x < y) ([] : List Char)
  simp only [hnl, and_false, or_false]
  omega

/-- Two-digit zero-padded renderings are injective. -/
theorem pad2_inj (a b : Nat) (ha : a < 100) (hb : b < 100) :
    (pad2 a = pad2 b ↔ a = b) := by
  unfold pad2
  simp only [List.cons.injEq, and_true]
  rw [digitChar_inj _ (by omega) _ (by omega), digitChar_inj _ (by omega) _ (by omega)]
  omega

/-- Four-digit zero-padded renderings compare like their values. -/
theorem pad4_lex_iff (a b : Nat) (ha : a < 10000) (hb : b < 10000) :
    (List.Lex (fun x y : Char => x < y) (pad4 a) (pad4 b) ↔ a < b) := by
  unfold pad4
  rw [lex_cons_iff', lex_cons_iff', lex_cons_iff', lex_cons_iff']
  rw [digitChar_lt_iff _ (by omega) _ (by omega), digitChar_inj _ (by omega) _ (by omega),
    digitChar_lt_iff _ (by omega) _ (by omega), digitChar_inj _ (by omega) _ (by omega),
    digitChar_lt_iff _ (by omega) _ (by omega), digitChar_inj _ (by omega) _ (by omega),
    digitChar_lt_iff _ (by omega) _ (by omega), digitChar_inj _ (by omega) _ (by omega)]
  have hnl := List.Lex.not_nil_right (fun x y : Char => x < y) ([] : List Char)
  simp only [hnl, and_false, or_false]
  omega

/-- Four-digit zero-padded renderings are injective. -/
theorem pad4_inj (a b : Nat) (ha : a < 10000) (hb : b < 10000) :
    (pad4 a = pad4 b ↔ a = b) := by
  unfold pad4
  simp only [List.cons.injEq, and_true]
  rw [digitChar_inj _ (by omega) _ (by omega), digitChar_inj _ (by omega) _ (by omega),
    digitChar_inj _ (by omega) _ (by omega), digitChar_inj _ (by omega) _ (by omega)]
  omega

/-- The compact timestamp text compares lexicographically exactly like the
instants compare chronologically. -/
theorem strftime_lex_iff (t1 t2 : UTCTime) (h1 : validTime t1) (h2 : validTime t2) :
    (List.Lex (fun x y : Char => x < y) (strftimeCompact t1).data (strftimeCompact t2).data ↔
      timeKey t1 < timeKey t2) := by
  obtain ⟨hy1, hmo1, hd1, hh1, hmi1, hs1⟩ := h1
  obtain ⟨hy2, hmo2, hd2, hh2, hmi2, hs2⟩ := h2
  have hdata : ∀ t : UTCTime, (strftimeCompact t).data =
      pad4 t.year ++ (pad2 t.month ++ (pad2 t.day ++
        ('T' :: (pad2 t.hour ++ (pad2 t.minute ++ (pad2 t.second ++ ['Z'])))))) := fun _ => rfl
  rw [hdata, hdata]
  rw [lex_append_iff (pad4 t1.year) (pad4 t2.year) _ _ (by rfl),
    pad4_lex_iff _ _ hy1 hy2, pad4_inj _ _ hy1 hy2]
  rw [lex_append_iff (pad2 t1.month) (pad2 t2.month) _ _ (by rfl),
    pad2_lex_iff _ _ hmo1 hmo2, pad2_inj _ _ hmo1 hmo2]
  rw [lex_append_iff (pad2 t1.day) (pad2 t2.day) _ _ (by rfl),
    pad2_lex_iff _ _ hd1 hd2, pad2_inj _ _ hd1 hd2]
  rw [lex_cons_iff']
  rw [lex_append_iff (pad2 t1.hour) (pad2 t2.hour) _ _ (by rfl),
    pad2_lex_iff _ _ hh1 hh2, pad2_inj _ _ hh1 hh2]
  rw [lex_append_iff (pad2 t1.minute) (pad2 t2.minute) _ _ (by rfl),
    pad2_lex_iff _ _ hmi1 hmi2, pad2_inj _ _ hmi1 hmi2]
  rw [lex_append_iff (pad2 t1.second) (pad2 t2.second) _ _ (by rfl),
    pad2_lex_iff _ _ hs1 hs2, pad2_inj _ _ hs1 hs2]
  rw [lex_cons_iff']
  have hnl := List.Lex.not_nil_right (fun x y : Char => x < y) ([] : List Char)
  simp only [hnl, lt_self_iff_false, and_false, or_false, false_or, true_and]
  unfold timeKey
  omega

/-- The generated timestamp text always has the sixteen characters of
`%Y%m%dT%H%M%SZ`. -/
theorem strftime_data_length (t : UTCTime) : (strftimeCompact t).data.length = 16 := rfl

/-- On generated log file names, lexicographic order coincides with
chronological order of the embedded timestamps. -/
theorem makeFilename_strftime_lex_iff (t1 t2 : UTCTime)
    (h1 : validTime t1) (h2 : validTime t2) :
    (lexLtCh (makeFilename (strftimeCompact t1)).data
        (makeFilename (strftimeCompact t2)).data = true ↔
      timeKey t1 < timeKey t2) := by
  rw [lexLtCh_iff_lex]
  unfold makeFilename
  rw [String.data_append, String.data_append, String.data_append, String.data_append]
  rw [List.append_assoc, List.append_assoc]
  rw [lex_append_iff ("dryer-log-".data) ("dryer-log-".data) _ _ (by rfl)]
  have hpp := lex_irrefl ("dryer-log-".data)
  simp only [hpp, false_or, true_and]
  rw [lex_append_iff (strftimeCompact t1).data (strftimeCompact t2).data _ _
    (by rw [strftime_data_length, strftime_data_length])]
  have hcsv := lex_irrefl (".csv".data)
  simp only [hcsv, and_false, or_false]
  exact strftime_lex_iff t1 t2 h1 h2

/-- C7: `list_logs()` returns the names of the directory matching
`dryer-log-*.csv`, in descending lexicographic order, and on generated
filenames with valid embedded timestamps this descending lexicographic
order coincides with reverse creation order (the fixed-width compact UTC
timestamp makes name order agree with chronological order). -/
theorem list_logs_order_spec :
    (∀ s : LoggerState,
      (list_logs s).Pairwise descOrd ∧
      (∀ n, n ∈ list_logs s ↔ n ∈ (s.fs.map Prod.fst).filter matchesLogName)) ∧
    (∀ t1 t2 : UTCTime, validTime t1 → validTime t2 →
      (lexLtCh (makeFilename (strftimeCompact t1)).data
          (makeFilename (strftimeCompact t2)).data = true ↔ timeKey t1 < timeKey t2)) := by
  constructor
  · intro s
    constructor
    · haveI hto : IsTotal String descOrd := ⟨descOrd_total⟩
      haveI htr : IsTrans String descOrd := ⟨descOrd_trans⟩
      exact List.sorted_insertionSort descOrd _
    · intro n
      exact (List.perm_insertionSort descOrd _).mem_iff
  · exact makeFilename_strftime_lex_iff

/-- Witness for `list_logs_order_spec`: two concrete instants a day apart
give lexicographically ordered filenames. -/
theorem list_logs_order_witness :
    validTime ⟨2025, 1, 1, 0, 0, 0⟩ ∧ validTime ⟨2025, 1, 2, 0, 0, 0⟩ ∧
    lexLtCh (makeFilename (strftimeCompact ⟨2025, 1, 1, 0, 0, 0⟩)).data
        (makeFilename (strftimeCompact ⟨2025, 1, 2, 0, 0, 0⟩)).data = true :=
  ⟨by decide, by decide,
    (list_logs_order_spec.2 ⟨2025, 1, 1, 0, 0, 0⟩ ⟨2025, 1, 2, 0, 0, 0⟩ (by decide)
      (by decide)).mpr (by decide)⟩

/-! ### Latest-row lookup and glob filtering (C6, C10) -/

/-- Every name produced by `list_logs` matches the glob pattern. -/
theorem matches_of_mem_list_logs (s : LoggerState) (n : String)
    (h : n ∈ list_logs s) : matchesLogName n = true := by
  unfold list_logs at h
  have h' := (List.perm_insertionSort descOrd
    ((s.fs.map Prod.fst).filter matchesLogName)).mem_iff.mp h
  exact (List.mem_filter.mp h').2

/-- A character that is not whitespace survives `dropWhile isWhitespace`. -/
theorem mem_dropWhile_of_not_whitespace (c : Char) (l : List Char)
    (hc : c.isWhitespace = false) (h : c ∈ l) :
    c ∈ l.dropWhile Char.isWhitespace := by
  induction l with
  | nil => cases h
  | cons a t ih =>
    rw [List.dropWhile_cons]
    by_cases ha : Char.isWhitespace a = true
    · rw [if_pos ha]
      rcases List.mem_cons.mp h with rfl | hmem
      · rw [hc] at ha
        exact absurd ha Bool.false_ne_true
      · exact ih hmem
    · rw [if_neg ha]
      exact h

/-- A text containing a comma does not strip to the empty line. -/
theorem stripStr_ne_empty_of_comma (s : String) (h : (',' : Char) ∈ s.data) :
    stripStr s ≠ "" := by
  intro he
  have hd : ((s.data.dropWhile Char.isWhitespace).reverse.dropWhile
      Char.isWhitespace).reverse = [] := congrArg String.data he
  have hmem : (',' : Char) ∈ ((s.data.dropWhile Char.isWhitespace).reverse.dropWhile
      Char.isWhitespace).reverse := by
    rw [List.mem_reverse]
    apply mem_dropWhile_of_not_whitespace _ _ (by decide)
    rw [List.mem_reverse]
    exact mem_dropWhile_of_not_whitespace _ _ (by decide) h
  rw [hd] at hmem
  cases hmem

/-- The rendering of a row with at least two cells contains the comma that
separates them. -/
theorem comma_mem_renderRow (a b : Cell) (t : List Cell) :
    (',' : Char) ∈ (renderRow (a :: b :: t)).data := by
  show (',' : Char) ∈ (csvQuote (renderCell a) ++ "," ++
    joinWith "," (csvQuote (renderCell b) :: t.map (fun c => csvQuote (renderCell c)))).data
  rw [String.data_append, String.data_append]
  refine List.mem_append.mpr (Or.inl (List.mem_append.mpr (Or.inr ?_)))
  show (',' : Char) ∈ (",".data)
  decide

/-- A rendered row of at least two cells is never the blank line dropped by
`get_latest_row`. -/
theorem stripRender_ne_empty (r : Row) (h : 2 ≤ r.length) :
    stripStr (renderRow r) ≠ "" := by
  cases r with
  | nil => exact absurd h (by simp)
  | cons a r1 =>
    cases r1 with
    | nil => exact absurd h (by simp)
    | cons b t => exact stripStr_ne_empty_of_comma _ (comma_mem_renderRow a b t)

/-- C6: `get_latest_row()` reads the newest file per `list_logs()` ordering
and yields null when no log file exists (in particular on the empty
directory) or when the newest file holds only its header line; for every
state whose newest file holds the header followed by data rows (rows of at
least two cells, as every logger-written row is), it returns the raw text
of the last data row, header excluded; and after one successful
`sample_once()` on the fresh logger it yields exactly the raw text of the
row just appended (which carries no surrounding whitespace, so stripping is
the identity on it). -/
theorem get_latest_row_spec :
    (∀ (s : LoggerState) (ok : Bool), list_logs s = [] → get_latest_row ok s = none) ∧
    (∀ ok : Bool, get_latest_row ok initState = none) ∧
    (∀ (s : LoggerState) (ok : Bool) (name : String) (rest : List String) (r1 : Row),
      list_logs s = name :: rest → lookupFS s.fs name = some [r1] →
      get_latest_row ok s = none) ∧
    (∀ (s : LoggerState) (name : String) (rest : List String)
        (front : List Row) (lastRow : Row),
      list_logs s = name :: rest →
      lookupFS s.fs name = some (headerRow :: (front ++ [lastRow])) →
      (∀ r ∈ front ++ [lastRow], 2 ≤ r.length) →
      get_latest_row true s = some (stripStr (renderRow lastRow))) ∧
    (get_latest_row true afterOnce =
      some (renderRow (sampleRow "2025-01-01T00:00:00" Cell.empty payloadAllNone)) ∧
     get_latest_row true afterOnce ≠ none ∧
     stripStr (renderRow (sampleRow "2025-01-01T00:00:00" Cell.empty payloadAllNone)) =
       renderRow (sampleRow "2025-01-01T00:00:00" Cell.empty payloadAllNone)) := by
  refine ⟨?_, ?_, ?_, ?_, ?_⟩
  · intro s ok h
    unfold get_latest_row
    rw [h]
  · decide
  · intro s ok name rest r1 hl hlook
    cases ok with
    | false =>
      unfold get_latest_row
      rw [hl]
      rfl
    | true =>
      unfold get_latest_row
      simp only [hl, hlook, if_true]
      split_ifs with hli
      · rfl
      · exact absurd (le_trans (List.length_filter_le _ _) (by simp)) hli
  · intro s name rest front lastRow hl hlook hcells
    unfold get_latest_row
    simp only [hl, hlook, if_true]
    have hall : ∀ a ∈ (headerRow :: (front ++ [lastRow])).map (fun r => stripStr (renderRow r)),
        (!(a == "")) = true := by
      intro a ha
      obtain ⟨r, hr, rfl⟩ := List.mem_map.mp ha
      have hne : stripStr (renderRow r) ≠ "" := by
        rcases List.mem_cons.mp hr with rfl | hr2
        · exact stripRender_ne_empty _ (by decide)
        · exact stripRender_ne_empty _ (hcells r hr2)
      simp [hne]
    rw [List.filter_eq_self.mpr hall]
    have hlen : ¬ ((headerRow :: (front ++ [lastRow])).map
        (fun r => stripStr (renderRow r))).length ≤ 1 := by
      simp only [List.length_map, List.length_cons, List.length_append,
        List.length_singleton]
      omega
    rw [if_neg hlen]
    rw [List.map_cons, List.map_append]
    show (stripStr (renderRow headerRow) ::
      (front.map (fun r => stripStr (renderRow r)) ++ [stripStr (renderRow lastRow)])).getLast? =
        some (stripStr (renderRow lastRow))
    rw [← List.cons_append, List.getLast?_concat]
  · exact ⟨by decide, by decide, by decide⟩

/-- Witness for `get_latest_row_spec`: the empty directory, a directory
whose only (newest) log file holds just the header row, and the fresh
logger after one `sample_once()` exercising the universal last-data-row
clause. -/
theorem get_latest_row_spec_witness :
    list_logs initState = [] ∧ get_latest_row true initState = none ∧
    list_logs (⟨[("dryer-log-20250101T000000Z.csv", [headerRow])], none, none, false, 900⟩ :
        LoggerState) = ["dryer-log-20250101T000000Z.csv"] ∧
    lookupFS [("dryer-log-20250101T000000Z.csv", [headerRow])]
        "dryer-log-20250101T000000Z.csv" = some [headerRow] ∧
    get_latest_row true (⟨[("dryer-log-20250101T000000Z.csv", [headerRow])], none, none,
        false, 900⟩ : LoggerState) = none ∧
    get_latest_row true afterOnce =
      some (stripStr (renderRow (sampleRow "2025-01-01T00:00:00" Cell.empty payloadAllNone))) :=
  ⟨by decide, get_latest_row_spec.1 initState true (by decide), by decide, by decide,
    get_latest_row_spec.2.2.1 _ true "dryer-log-20250101T000000Z.csv" [] headerRow
      (by decide) (by decide),
    get_latest_row_spec.2.2.2.1 afterOnce (makeFilename "20250101T000000Z") [] []
      (sampleRow "2025-01-01T00:00:00" Cell.empty payloadAllNone)
      (by decide) (by decide) (by decide)⟩

/-- C10 (implicit): files whose names do not match `dryer-log-*.csv` are
invisible to the sampler's queries: adding such a file to the directory
changes neither `list_logs()` (in particular the foreign name is never
listed) nor `get_latest_row()`. -/
theorem foreign_files_ignored :
    ∀ (s : LoggerState) (name : String) (rows : List Row),
      matchesLogName name = false →
      list_logs { s with fs := (name, rows) :: s.fs } = list_logs s ∧
      name ∉ list_logs { s with fs := (name, rows) :: s.fs } ∧
      (∀ ok, get_latest_row ok { s with fs := (name, rows) :: s.fs } = get_latest_row ok s) := by
  intro s name rows h
  have hl : list_logs { s with fs := (name, rows) :: s.fs } = list_logs s := by
    unfold list_logs
    simp only [List.map_cons]
    rw [List.filter_cons_of_neg (by rw [h]; exact Bool.false_ne_true)]
  refine ⟨hl, ?_, ?_⟩
  · intro hmem
    rw [hl] at hmem
    have hmm := matches_of_mem_list_logs s name hmem
    rw [h] at hmm
    exact Bool.false_ne_true hmm
  · intro ok
    unfold get_latest_row
    rw [hl]
    cases hc : list_logs s with
    | nil => rfl
    | cons newest rest =>
      have hmem : newest ∈ list_logs s := by
        rw [hc]
        exact List.mem_cons_self _ _
      have hmatch := matches_of_mem_list_logs s newest hmem
      have hne : ¬ (((name, rows) : String × List Row).1 == newest) = true := by
        simp only [beq_iff_eq]
        intro hh
        have hh' : name = newest := hh
        rw [hh', hmatch] at h
        exact Bool.false_ne_true h.symm
      have hlook : lookupFS ({ s with fs := (name, rows) :: s.fs }).fs newest =
          lookupFS s.fs newest := by
        show lookupFS ((name, rows) :: s.fs) newest = lookupFS s.fs newest
        unfold lookupFS
        rw [@List.find?_cons_of_neg (String × List Row) (fun q => q.1 == newest)
          (name, rows) s.fs hne]
      simp only [hlook]

/-- Witness for `foreign_files_ignored`: an exported spreadsheet dropped
into the log directory is not listed. -/
theorem foreign_files_ignored_witness :
    matchesLogName "export.xlsx" = false ∧
    list_logs { initState with fs := [("export.xlsx", [headerRow])] } = [] ∧
    "export.xlsx" ∉ list_logs { initState with fs := [("export.xlsx", [headerRow])] } :=
  ⟨by decide,
    (foreign_files_ignored initState "export.xlsx" [headerRow] (by decide)).1,
    (foreign_files_ignored initState "export.xlsx" [headerRow] (by decide)).2.1⟩

end DryerLog
